import Mathlib

/-!
Shallow embedding of `src/utils/findpackage/packagewin.rs` from neocmakelsp:
the Windows CMake package-discovery index.  Filesystems are modelled as
finite trees of readable/unreadable directories and files; paths are lists
of components.  The collaborators that live outside this file's source
(the `CMAKECONFIG` / `CMAKECONFIGVERSION` / `CMAKEREGEX` regexes,
`get_version`, and `Url::from_file_path`) are opaque parameters gathered in
`Collab`; spec-modelled concrete instances are provided for witnesses.
-/

namespace FindPkg

/-- A filesystem path, as a list of components from the filesystem root. -/
abbrev FsPath := List String

/-- Mirrors the repository's `FileType` enum: a package is either a directory
holding cmake files or a single standalone file. -/
inductive FileType where
  | Dir
  | File
deriving DecidableEq, Repr

/-- Mirrors `CMakePackageFrom`; this scanner only ever produces `System`. -/
inductive CMakePackageFrom where
  | System
deriving DecidableEq, Repr

/-- Mirrors the `CMakePackage` record: name, kind, location URL, optional
version, navigation targets (`tojump`), and provenance (`from`, renamed
`from_` because `from` is a Lean keyword). -/
structure CMakePackage where
  name : String
  filetype : FileType
  filepath : String
  version : Option String
  tojump : List FsPath
  from_ : CMakePackageFrom
deriving DecidableEq, Repr

/-- Model of a filesystem entry: a file with content or a directory with
named children.  The `readable` flag gates listing a directory or reading a
file's content; path traversal through a directory does not consult it. -/
inductive FSEntry where
  | file (readable : Bool) (content : String)
  | dir (readable : Bool) (children : List (String × FSEntry))

/-- Resolve a path inside a filesystem tree. -/
def FSEntry.find : FSEntry → FsPath → Option FSEntry
  | e, [] => some e
  | FSEntry.dir _ cs, n :: rest =>
    match cs.find? (fun c => c.1 == n) with
    | some c => c.2.find rest
    | none => none
  | FSEntry.file _ _, _ :: _ => none

/-- List a directory's children (models `std::fs::read_dir` and the
directory-walking done by `glob`): fails on a missing path, on a file, and
on an unreadable directory. -/
def FSEntry.listDir (fsys : FSEntry) (p : FsPath) : Option (List (String × FSEntry)) :=
  match fsys.find p with
  | some (FSEntry.dir true cs) => some cs
  | _ => none

/-- Read a file's content (models `fs::read_to_string`): fails on a missing
path, a directory, or an unreadable file. -/
def FSEntry.readFile (fsys : FSEntry) (p : FsPath) : Option String :=
  match fsys.find p with
  | some (FSEntry.file true c) => some c
  | _ => none

/-- Lexical path normalisation: models `safe_canonicalize`, i.e. the
`path_absolutize` crate's `absolutize` on an absolute path, which resolves
`.` and `..` components purely lexically. -/
def absolutize (p : FsPath) : FsPath :=
  p.foldl (fun acc c => if c = "." then acc else if c = ".." then acc.dropLast else acc ++ [c]) []

/-- Render a path as the string the Rust code obtains from `to_str()`. -/
def pathStr (p : FsPath) : String := p.foldl (fun acc c => acc ++ "/" ++ c) ""

/-- Whether character list `suffix` is a suffix of `s` (structural, so that
concrete instances evaluate inside the kernel). -/
def strEndsWith (s suffix : String) : Bool := suffix.data.isSuffixOf s.data

/-- Strict lexicographic order on character lists, used to model the
alphabetical order in which the `glob` crate yields matches. -/
def charListLt : List Char → List Char → Bool
  | [], [] => false
  | [], _ :: _ => true
  | _ :: _, [] => false
  | c :: cs, d :: ds => if c < d then true else if d < c then false else charListLt cs ds

/-- Insert a string into an already-sorted list. -/
def insertSorted (s : String) : List String → List String
  | [] => [s]
  | t :: ts => if charListLt t.data s.data then t :: insertSorted s ts else s :: t :: ts

/-- Sort strings alphabetically (models the `glob` crate's documented
alphabetical yield order). -/
def sortStrings : List String → List String
  | [] => []
  | s :: rest => insertSorted s (sortStrings rest)

/-- If `pat` is a prefix of the list, return the remainder. -/
def dropPrefixCL : List Char → List Char → Option (List Char)
  | [], l => some l
  | _ :: _, [] => none
  | c :: cs, d :: ds => if c = d then dropPrefixCL cs ds else none

/-- Return the suffix following the first occurrence of `pat`, if any. -/
def afterPattern (pat : List Char) (l : List Char) : Option (List Char) :=
  match dropPrefixCL pat l with
  | some rest => some rest
  | none =>
    match l with
    | [] => none
    | _ :: cs => afterPattern pat cs

/-- Take the characters up to (excluding) the next double quote. -/
def takeUntilQuote : List Char → Option (List Char)
  | [] => none
  | c :: cs => if c = '\"' then some [] else (takeUntilQuote cs).map (c :: ·)

/-- Modelled from the spec: the `VersionExtractor` collaborator
(`get_version`, defined outside this source file).  Given file content it
returns the quoted string following a `PACKAGE_VERSION` marker, or `none`;
per the spec invariant it never returns an empty string. -/
def get_version (content : String) : Option String :=
  match afterPattern "PACKAGE_VERSION".data content.data with
  | none => none
  | some rest =>
    match afterPattern ['\"'] rest with
    | none => none
    | some rest2 =>
      match takeUntilQuote rest2 with
      | none => none
      | some v => if v.isEmpty then none else some (String.mk v)

/-- The external collaborators consumed by the scanner, kept opaque:
the three filename classifiers (`CMAKECONFIG`, `CMAKECONFIGVERSION`,
`CMAKEREGEX` in the source), the version extractor `get_version`, and
`Url::from_file_path` (which may fail, modelled by `Option`). -/
structure Collab where
  cmakeconfig : String → Bool
  cmakeconfigversion : String → Bool
  cmakeregex : String → Bool
  getVersion : String → Option String
  from_file_path : FsPath → Option String

/-- Modelled from the spec: the `FileClassifier` config-file predicate
(`CMAKECONFIG`): a `<Name>Config.cmake` or `<name>-config.cmake` file. -/
def specIsConfig (s : String) : Bool :=
  strEndsWith s "Config.cmake" || strEndsWith s "-config.cmake"

/-- Modelled from the spec: the `FileClassifier` config-version predicate
(`CMAKECONFIGVERSION`): a `<Name>ConfigVersion.cmake` file. -/
def specIsConfigVersion (s : String) : Bool := strEndsWith s "ConfigVersion.cmake"

/-- Modelled from the spec: the `FileClassifier` module-file predicate
(`CMAKEREGEX`): any `.cmake` file. -/
def specIsModule (s : String) : Bool := strEndsWith s ".cmake"

/-- Modelled from the spec: a total `toLocationIdentifier`
(`Url::from_file_path`) that never fails, as in the test environment. -/
def specToUrl (p : FsPath) : Option String :=
  some (p.foldl (fun acc c => acc ++ "/" ++ c) "file://")

/-- The concrete collaborator bundle used for witnesses. -/
def specCollab : Collab :=
  { cmakeconfig := specIsConfig
    cmakeconfigversion := specIsConfigVersion
    cmakeregex := specIsModule
    getVersion := get_version
    from_file_path := specToUrl }

/-- The name-keyed index, modelled as an association list so that the
insertion order of `HashMap` entries is recorded; `HashMap` key lookup. -/
abbrev PackageMap := List (String × CMakePackage)

/-- Lookup by package name (models `HashMap` indexing). -/
def PackageMap.findPkg (m : PackageMap) (k : String) : Option CMakePackage :=
  match m.find? (fun p => p.1 == k) with
  | some p => some p.2
  | none => none

/-- Models `packages.entry(k).or_insert_with(v)`: insert only when the key
is absent (first-insert-wins). -/
def PackageMap.orInsert (m : PackageMap) (k : String) (v : CMakePackage) : PackageMap :=
  match m.find? (fun p => p.1 == k) with
  | some _ => m
  | none => m ++ [(k, v)]

/-- The environment variables the prefix resolver consults:
`MSYSTEM_PREFIX` and `CMAKE_PREFIX_PATH`, each optionally set (their string
values abstracted as the paths they denote). -/
structure Env where
  msystem : Option FsPath
  cmakePrefixPath : Option FsPath

/-- Mirrors `get_prefix`: `MSYSTEM_PREFIX` first, else `CMAKE_PREFIX_PATH`. -/
def get_prefix (env : Env) : Option FsPath :=
  match env.msystem with
  | some p => some p
  | none => env.cmakePrefixPath

/-- The fixed candidate list `LIBS` from the source. -/
def LIBS : List String := ["lib", "lib32", "lib64", "share"]

/-- Mirrors `get_available_libs`: each candidate suffixed with `/cmake`,
kept when it exists on disk, in candidate order. -/
def get_available_libs (fsys : FSEntry) (pre : FsPath) : List FsPath :=
  (LIBS.filter (fun l => (fsys.find (pre ++ [l, "cmake"])).isSome)).map
    (fun l => pre ++ [l, "cmake"])

/-- Models `glob("{prefix}/share/*/cmake/")`: the existing directories
`prefix/share/X/cmake`, with `X` ranging over the children of
`prefix/share`, yielded in alphabetical order.  An unlistable `share`
yields nothing (glob reports per-directory read errors as skipped
entries). -/
def globConfigDirs (fsys : FSEntry) (pre : FsPath) : List FsPath :=
  match fsys.listDir (pre ++ ["share"]) with
  | none => []
  | some cs =>
    (sortStrings (cs.map Prod.fst)).filterMap (fun n =>
      match fsys.find (pre ++ ["share", n, "cmake"]) with
      | some (FSEntry.dir _ _) => some (pre ++ ["share", n, "cmake"])
      | _ => none)

/-- Models `glob("{dir}/*.cmake")`: names of the entries of `dir` ending in
`.cmake`, alphabetically; an unlistable directory yields nothing. -/
def globCmakeFiles (fsys : FSEntry) (d : FsPath) : List String :=
  match fsys.listDir d with
  | none => []
  | some cs => sortStrings ((cs.filter (fun c => strEndsWith c.1 ".cmake")).map Prod.fst)

/-- The per-tree mutable state of the config-tree loop: `tojump`,
`version`, `ispackage`. -/
structure TreeState where
  tojump : List FsPath
  version : Option String
  ispackage : Bool
deriving DecidableEq, Repr

/-- The body of the config-tree file loop (source lines 63-73): push the
canonicalized path, mark the tree as a package on a `CMAKECONFIG` match,
and on a `CMAKECONFIGVERSION` match overwrite `version` with the parse of
the file's content whenever the file could be read. -/
def treeStep (C : Collab) (fsys : FSEntry) (tree : FsPath) (st : TreeState) (f : String) :
    TreeState :=
  let fpath := tree ++ [f]
  let st1 := { st with tojump := st.tojump ++ [absolutize fpath] }
  let st2 := if C.cmakeconfig (pathStr fpath) then { st1 with ispackage := true } else st1
  if C.cmakeconfigversion (pathStr fpath) then
    match fsys.readFile fpath with
    | some content => { st2 with version := C.getVersion content }
    | none => st2
  else st2

/-- The config-tree file loop: fold `treeStep` over the tree's files. -/
def scanTreeFiles (C : Collab) (fsys : FSEntry) (tree : FsPath) :
    List String → TreeState → TreeState
  | [], st => st
  | f :: rest, st => scanTreeFiles C fsys tree rest (treeStep C fsys tree st f)

/-- The state left by the file loop of one config tree, started from the
empty state of source lines 60-62. -/
def treeScanState (C : Collab) (fsys : FSEntry) (tree : FsPath) : TreeState :=
  scanTreeFiles C fsys tree (globCmakeFiles fsys tree) ⟨[], none, false⟩

/-- Process one `share/X/cmake` tree (source lines 56-94): scan its
`*.cmake` files, and if the tree was marked as a package, build the URL
(whose failure aborts, hence `Option`), derive the package name from the
parent directory of the `cmake` directory, and first-insert it. -/
def processTree (C : Collab) (fsys : FSEntry) (m : PackageMap) (tree : FsPath) :
    Option PackageMap :=
  let st := treeScanState C fsys tree
  if st.ispackage then
    match C.from_file_path tree with
    | none => none
    | some url =>
      match tree.dropLast.getLast? with
      | none => none
      | some packagename =>
        some (m.orInsert packagename
          { name := packagename, filetype := FileType.Dir, filepath := url,
            version := st.version, tojump := st.tojump, from_ := CMakePackageFrom.System })
  else some m

/-- Run the config-tree scanner over a list of trees, threading the map and
propagating an abort. -/
def scanConfigTrees (C : Collab) (fsys : FSEntry) :
    List FsPath → PackageMap → Option PackageMap
  | [], m => some m
  | t :: ts, m =>
    match processTree C fsys m t with
    | none => none
    | some m2 => scanConfigTrees C fsys ts m2

/-- The inner file loop of a directory child of a library root (source
lines 112-125): for each file child matching `CMAKEREGEX`, record its
canonicalized path, and additionally parse a version on a
`CMAKECONFIGVERSION` match when the file is readable. -/
def scanDirFiles (C : Collab) (fsys : FSEntry) (dirPath : FsPath) :
    List (String × FSEntry) → Option String × List FsPath → Option String × List FsPath
  | [], st => st
  | (fname, entry) :: rest, st =>
    match entry with
    | FSEntry.file _ _ =>
      let fpath := absolutize (dirPath ++ [fname])
      if C.cmakeregex fname then
        let tj := st.2 ++ [fpath]
        let v :=
          if C.cmakeconfigversion fname then
            match fsys.readFile fpath with
            | some content => C.getVersion content
            | none => st.1
          else st.1
        scanDirFiles C fsys dirPath rest (v, tj)
      else scanDirFiles C fsys dirPath rest st
    | FSEntry.dir _ _ => scanDirFiles C fsys dirPath rest st

/-- Mirrors the Rust `pathname.split('.').collect::<Vec<&str>>()[0]`: the
characters of the name before its first dot. -/
def filePackageName (s : String) : String := String.mk (takeUntilDot s.data)
where
  takeUntilDot : List Char → List Char
    | [] => []
    | c :: cs => if c = '.' then [] else c :: takeUntilDot cs

/-- Process one child of a library root (source lines 101-144).  The URL is
built unconditionally first (its failure aborts the whole build).  A
directory child whose listing fails is skipped entirely; a listable one is
always inserted as a `Dir` package named after the directory.  A file child
becomes a `File` package named by truncation at the first dot, the file
itself its sole navigation target. -/
def processLibChild (C : Collab) (fsys : FSEntry) (m : PackageMap) (root : FsPath)
    (child : String × FSEntry) : Option PackageMap :=
  let pathname := child.1
  let cpath := root ++ [pathname]
  match C.from_file_path cpath with
  | none => none
  | some packagepath =>
    match child.2 with
    | FSEntry.dir readable cs =>
      if readable then
        let st := scanDirFiles C fsys cpath cs (none, [])
        some (m.orInsert pathname
          { name := pathname, filetype := FileType.Dir, filepath := packagepath,
            version := st.1, tojump := st.2, from_ := CMakePackageFrom.System })
      else some m
    | FSEntry.file _ _ =>
      let pname := filePackageName pathname
      some (m.orInsert pname
        { name := pname, filetype := FileType.File, filepath := packagepath,
          version := none, tojump := [absolutize cpath], from_ := CMakePackageFrom.System })

/-- Run the library-root child loop over a list of children. -/
def scanLibChildren (C : Collab) (fsys : FSEntry) (root : FsPath) :
    List (String × FSEntry) → PackageMap → Option PackageMap
  | [], m => some m
  | c :: cs, m =>
    match processLibChild C fsys m root c with
    | none => none
    | some m2 => scanLibChildren C fsys root cs m2

/-- Process one library root (source lines 97-100): an unlistable root is
skipped (`continue`), otherwise its children are scanned in enumeration
order. -/
def processLibRoot (C : Collab) (fsys : FSEntry) (m : PackageMap) (root : FsPath) :
    Option PackageMap :=
  match fsys.listDir root with
  | none => some m
  | some cs => scanLibChildren C fsys root cs m

/-- Run the library-root scanner over all available roots. -/
def scanLibRoots (C : Collab) (fsys : FSEntry) :
    List FsPath → PackageMap → Option PackageMap
  | [], m => some m
  | r :: rs, m =>
    match processLibRoot C fsys m r with
    | none => none
    | some m2 => scanLibRoots C fsys rs m2

/-- Mirrors `get_cmake_message_with_prefix`: the config-tree scan runs to
completion first, then the library-root scan, merging into one map;
`none` models the process-aborting `unwrap` on URL construction. -/
def get_cmake_message_with_prefix (C : Collab) (fsys : FSEntry) (pre : FsPath) :
    Option PackageMap :=
  match scanConfigTrees C fsys (globConfigDirs fsys pre) [] with
  | none => none
  | some m => scanLibRoots C fsys (get_available_libs fsys pre) m

/-- Mirrors `get_cmake_message`: an unconfigured prefix yields the empty
map (not an error). -/
def get_cmake_message (C : Collab) (fsys : FSEntry) (env : Env) : Option PackageMap :=
  match get_prefix env with
  | none => some []
  | some pre => get_cmake_message_with_prefix C fsys pre

/-- Models `HashMap::into_values().collect::<Vec<_>>()`, which yields the
map's values in an arbitrary, unspecified order: the ordered view
`CMAKE_PACKAGES` is the value projection of some enumeration `vs` of the
map's entries. -/
def intoValues (vs : List (String × CMakePackage)) : List CMakePackage :=
  vs.map Prod.snd

/-- An admissible `HashMap` enumeration order: any permutation of the
entries of the built map. -/
abbrev validValuesOrder (m : PackageMap) (vs : List (String × CMakePackage)) : Prop :=
  vs.Perm m

/-- Uniqueness of package names in an index: no key occurs twice. -/
abbrev keysNodup (m : PackageMap) : Prop := (m.map Prod.fst).Nodup

/-- A library-root directory child that contributes nothing to the file
loop: either a subdirectory, or a file whose name fails `CMAKEREGEX`. -/
def nonModuleChild (C : Collab) (f : String × FSEntry) : Bool :=
  match f.2 with
  | FSEntry.file _ _ => !(C.cmakeregex f.1)
  | FSEntry.dir _ _ => true

/-- The `share/cmake/VulkanHeaders` tree of the repository's unit test. -/
def vulkanTree : FSEntry :=
  FSEntry.dir true [
    ("VulkanHeadersConfig.cmake", FSEntry.file true ""),
    ("VulkanHeadersConfigVersion.cmake",
      FSEntry.file true "set(PACKAGE_VERSION \"1.3.295\")\n")]

/-- The filesystem of the repository's unit test `test_package_search`:
a `share/cmake/VulkanHeaders` tree and a `share/ECM/cmake` tree. -/
def testFS : FSEntry :=
  FSEntry.dir true [
    ("share", FSEntry.dir true [
      ("ECM", FSEntry.dir true [
        ("cmake", FSEntry.dir true [
          ("ECMConfig.cmake", FSEntry.file true ""),
          ("ECMConfigVersion.cmake",
            FSEntry.file true "set(PACKAGE_VERSION \"6.5.0\")\n")])]),
      ("cmake", FSEntry.dir true [
        ("VulkanHeaders", vulkanTree)])])]

/-- The index built over `testFS` with the spec-modelled collaborators. -/
def testIndex : Option PackageMap := get_cmake_message_with_prefix specCollab testFS []

/-- The expected `VulkanHeaders` record. -/
def vulkanPkg : CMakePackage :=
  { name := "VulkanHeaders", filetype := FileType.Dir,
    filepath := "file:///share/cmake/VulkanHeaders",
    version := some "1.3.295",
    tojump := [["share", "cmake", "VulkanHeaders", "VulkanHeadersConfig.cmake"],
               ["share", "cmake", "VulkanHeaders", "VulkanHeadersConfigVersion.cmake"]],
    from_ := CMakePackageFrom.System }

/-- The expected `ECM` record. -/
def ecmPkg : CMakePackage :=
  { name := "ECM", filetype := FileType.Dir,
    filepath := "file:///share/ECM/cmake",
    version := some "6.5.0",
    tojump := [["share", "ECM", "cmake", "ECMConfig.cmake"],
               ["share", "ECM", "cmake", "ECMConfigVersion.cmake"]],
    from_ := CMakePackageFrom.System }

/-- The expected index over `testFS`, in insertion order (the config-tree
scan inserts `ECM` first, then the library-root scan inserts
`VulkanHeaders`). -/
def testMap : PackageMap := [("ECM", ecmPkg), ("VulkanHeaders", vulkanPkg)]

/-- An enumeration of `testMap`'s entries in the reverse of insertion
order (an admissible `HashMap` iteration order). -/
def revOrder : List (String × CMakePackage) := [("VulkanHeaders", vulkanPkg), ("ECM", ecmPkg)]

/-- A filesystem whose `share/Foo/cmake` tree holds two config-version
files: `AConfigVersion.cmake` parses to a version, while the later
`BConfigVersion.cmake` is readable but carries no parsable version. -/
def c2fs : FSEntry :=
  FSEntry.dir true [
    ("share", FSEntry.dir true [
      ("Foo", FSEntry.dir true [
        ("cmake", FSEntry.dir true [
          ("AConfigVersion.cmake", FSEntry.file true "set(PACKAGE_VERSION \"1.0\")"),
          ("BConfigVersion.cmake", FSEntry.file true "no version here"),
          ("FooConfig.cmake", FSEntry.file true "")])])])]

/-- The index built over `c2fs`. -/
def c2Index : Option PackageMap := get_cmake_message_with_prefix specCollab c2fs []

/-- Collaborators whose URL construction fails exactly on the `ECM`
config-tree path. -/
def failCollabA : Collab :=
  { specCollab with
    from_file_path := fun p => if p = ["share", "ECM", "cmake"] then none else specToUrl p }

/-- Collaborators whose URL construction fails exactly on the
`VulkanHeaders` library-root child path. -/
def failCollabB : Collab :=
  { specCollab with
    from_file_path := fun p =>
      if p = ["share", "cmake", "VulkanHeaders"] then none else specToUrl p }

/-- A filesystem with an unreadable directory (`secret`), used to observe
the skip-on-unreadable behaviour. -/
def lockedFS : FSEntry :=
  FSEntry.dir true [
    ("secret", FSEntry.dir false [("a.cmake", FSEntry.file true "")])]

/-- A filesystem in which the config tree `share/Bar/cmake` and the
library-root child `share/cmake/Bar` both produce the package name
"Bar". -/
def c3fs : FSEntry :=
  FSEntry.dir true [
    ("share", FSEntry.dir true [
      ("Bar", FSEntry.dir true [
        ("cmake", FSEntry.dir true [
          ("BarConfig.cmake", FSEntry.file true "")])]),
      ("cmake", FSEntry.dir true [
        ("Bar", FSEntry.dir true [
          ("BarConfig.cmake", FSEntry.file true ""),
          ("BarConfigVersion.cmake", FSEntry.file true "set(PACKAGE_VERSION \"9.9\")")])])])]

/-- The config-style "Bar" record discovered first over `c3fs`. -/
def barCfgPkg : CMakePackage :=
  { name := "Bar", filetype := FileType.Dir,
    filepath := "file:///share/Bar/cmake",
    version := none,
    tojump := [["share", "Bar", "cmake", "BarConfig.cmake"]],
    from_ := CMakePackageFrom.System }

/-- C1: over the unit-test layout (a `share/cmake/VulkanHeaders` tree whose
config-version file declares 1.3.295, and a `share/ECM/cmake` tree
declaring 6.5.0), the built index holds a record keyed "VulkanHeaders"
with filetype `Dir`, version "1.3.295" and navigation targets containing
the canonicalized paths of both VulkanHeaders files, and simultaneously an
independent record keyed "ECM" with filetype `Dir` and version "6.5.0":
the two trees do not interfere. -/
theorem C1_two_trees_independent :
    ∃ m vk ecm, testIndex = some m ∧
      PackageMap.findPkg m "VulkanHeaders" = some vk ∧
      vk.filetype = FileType.Dir ∧
      vk.version = some "1.3.295" ∧
      absolutize ["share", "cmake", "VulkanHeaders", "VulkanHeadersConfig.cmake"] ∈ vk.tojump ∧
      absolutize ["share", "cmake", "VulkanHeaders", "VulkanHeadersConfigVersion.cmake"] ∈
        vk.tojump ∧
      PackageMap.findPkg m "ECM" = some ecm ∧
      ecm.filetype = FileType.Dir ∧
      ecm.version = some "6.5.0" :=
  ⟨testMap, vulkanPkg, ecmPkg, by decide⟩

/-- C2 counterexample: in the `share/Foo/cmake` tree of `c2fs`, the earlier
`AConfigVersion.cmake` parses to version "1.0", the later
`BConfigVersion.cmake` is read successfully but fails to parse, and the
recorded version is `none` rather than the claim's "1.0": a later failed
parse of a readable file clobbers the earlier successful one. -/
theorem C2_counterexample :
    get_version "set(PACKAGE_VERSION \"1.0\")" = some "1.0" ∧
    FSEntry.readFile c2fs ["share", "Foo", "cmake", "BConfigVersion.cmake"] =
      some "no version here" ∧
    get_version "no version here" = none ∧
    c2Index = some [("Foo",
      { name := "Foo", filetype := FileType.Dir, filepath := "file:///share/Foo/cmake",
        version := none,
        tojump := [["share", "Foo", "cmake", "AConfigVersion.cmake"],
                   ["share", "Foo", "cmake", "BConfigVersion.cmake"],
                   ["share", "Foo", "cmake", "FooConfig.cmake"]],
        from_ := CMakePackageFrom.System })] := by
  refine ⟨by decide, by decide, by decide, by decide⟩

/-- C4: if the MSYS-style variable is set its value is the prefix even when
the generic variable is also set; if only the generic one is set it is
used; if neither is set the build returns the empty table, not an error. -/
theorem C4_prefix_variable_precedence (C : Collab) (fsys : FSEntry) (p q : FsPath) :
    get_cmake_message C fsys { msystem := some p, cmakePrefixPath := some q } =
      get_cmake_message_with_prefix C fsys p ∧
    get_cmake_message C fsys { msystem := some p, cmakePrefixPath := none } =
      get_cmake_message_with_prefix C fsys p ∧
    get_cmake_message C fsys { msystem := none, cmakePrefixPath := some q } =
      get_cmake_message_with_prefix C fsys q ∧
    get_cmake_message C fsys { msystem := none, cmakePrefixPath := none } = some [] :=
  ⟨rfl, rfl, rfl, rfl⟩

/-- C5 counterexample: the sequence view is `HashMap::into_values`, whose
enumeration order is arbitrary; for the build over the unit-test
filesystem, the reverse enumeration `revOrder` is an admissible iteration
order, yet its value sequence differs from the insertion order. -/
theorem C5_counterexample :
    testIndex = some testMap ∧
    validValuesOrder testMap revOrder ∧
    intoValues revOrder ≠ testMap.map Prod.snd := by
  refine ⟨by decide, by decide, by decide⟩

/-- C5 amended: the index exposes a name-keyed table and a sequence view of
the same records, but the sequence's order is unspecified: for every
admissible enumeration order of the built table, the sequence view is a
permutation of the records in insertion order. -/
theorem C5_amended_unordered_view (C : Collab) (fsys : FSEntry) (env : Env)
    (m : PackageMap) (vs : List (String × CMakePackage))
    (_hm : get_cmake_message C fsys env = some m)
    (hvs : validValuesOrder m vs) :
    (intoValues vs).Perm (m.map Prod.snd) :=
  hvs.map Prod.snd

/-- C5 amended witness at the unit-test build with the reverse enumeration
order. -/
theorem C5_amended_unordered_view_witness :
    (intoValues revOrder).Perm (testMap.map Prod.snd) :=
  C5_amended_unordered_view specCollab testFS
    { msystem := some [], cmakePrefixPath := none } testMap revOrder
    (by decide) (by decide)

/-- C9: the build is a deterministic function of the prefix and filesystem:
two runs over the same environment and filesystem yield element-for-element
identical keyed tables, and their sequence views (taken under any two
admissible enumeration orders) are permutations of each other. -/
theorem C9_deterministic_build (C : Collab) (fsys : FSEntry) (env : Env)
    (m1 m2 : PackageMap) (vs1 vs2 : List (String × CMakePackage))
    (h1 : get_cmake_message C fsys env = some m1)
    (h2 : get_cmake_message C fsys env = some m2)
    (hv1 : validValuesOrder m1 vs1) (hv2 : validValuesOrder m2 vs2) :
    m1 = m2 ∧ (intoValues vs1).Perm (intoValues vs2) := by
  have hm : m1 = m2 := Option.some.inj (h1.symm.trans h2)
  subst hm
  exact ⟨rfl, (hv1.map Prod.snd).trans (hv2.map Prod.snd).symm⟩

/-- C9 witness: two snapshots of the unit-test build, enumerated in
insertion order and in reverse order. -/
theorem C9_deterministic_build_witness :
    testMap = testMap ∧ (intoValues testMap).Perm (intoValues revOrder) :=
  C9_deterministic_build specCollab testFS
    { msystem := some [], cmakePrefixPath := none } testMap testMap testMap revOrder
    (by decide) (by decide) (by decide) (by decide)

/-- C6: a file child of a library root yields a `File`-type record whose
sole navigation target is the canonicalized file and whose name is the
file's base name truncated at the first dot; in particular
`FindFoo.cmake` yields "FindFoo" and `Foo.Bar.cmake` yields "Foo". -/
theorem C6_file_child_record (C : Collab) (fsys : FSEntry) (m : PackageMap)
    (root : FsPath) (s : String) (r : Bool) (content : String) (u : String)
    (hu : C.from_file_path (root ++ [s]) = some u) :
    processLibChild C fsys m root (s, FSEntry.file r content) =
      some (m.orInsert (filePackageName s)
        { name := filePackageName s, filetype := FileType.File, filepath := u,
          version := none, tojump := [absolutize (root ++ [s])],
          from_ := CMakePackageFrom.System }) ∧
    filePackageName "FindFoo.cmake" = "FindFoo" ∧
    filePackageName "Foo.Bar.cmake" = "Foo" := by
  refine ⟨?_, by decide, by decide⟩
  simp [processLibChild, hu]

/-- C6 witness at a concrete `FindFoo.cmake` file child. -/
theorem C6_file_child_record_witness :
    specCollab.from_file_path (["lib", "cmake"] ++ ["FindFoo.cmake"]) =
      some "file:///lib/cmake/FindFoo.cmake" ∧
    processLibChild specCollab lockedFS [] ["lib", "cmake"]
        ("FindFoo.cmake", FSEntry.file true "") =
      some (PackageMap.orInsert [] (filePackageName "FindFoo.cmake")
        { name := filePackageName "FindFoo.cmake", filetype := FileType.File,
          filepath := "file:///lib/cmake/FindFoo.cmake",
          version := none, tojump := [absolutize (["lib", "cmake"] ++ ["FindFoo.cmake"])],
          from_ := CMakePackageFrom.System }) :=
  ⟨by decide,
    (C6_file_child_record specCollab lockedFS [] ["lib", "cmake"] "FindFoo.cmake" true ""
      "file:///lib/cmake/FindFoo.cmake" (by decide)).1⟩

/-- C8: an unlistable config tree contributes nothing, an unlistable
library root is skipped, and a library-root directory child whose listing
fails is skipped entirely (once its URL was built); none of these aborts
the build. -/
theorem C8_unreadable_skipped (C : Collab) (fsys : FSEntry) (m : PackageMap)
    (tree root : FsPath) (s : String) (cs : List (String × FSEntry)) (u : String) :
    (fsys.listDir tree = none → processTree C fsys m tree = some m) ∧
    (fsys.listDir root = none → processLibRoot C fsys m root = some m) ∧
    (C.from_file_path (root ++ [s]) = some u →
      processLibChild C fsys m root (s, FSEntry.dir false cs) = some m) := by
  refine ⟨fun h => ?_, fun h => ?_, fun h => ?_⟩
  · simp [processTree, treeScanState, globCmakeFiles, h, scanTreeFiles]
  · simp [processLibRoot, h]
  · simp [processLibChild, h]

/-- C8 witness over the filesystem with the unreadable `secret` directory. -/
theorem C8_unreadable_skipped_witness :
    processTree specCollab lockedFS [] ["secret"] = some [] ∧
    processLibRoot specCollab lockedFS [] ["secret"] = some [] ∧
    processLibChild specCollab lockedFS [] []
      ("secret", FSEntry.dir false [("a.cmake", FSEntry.file true "")]) = some [] :=
  ⟨(C8_unreadable_skipped specCollab lockedFS [] ["secret"] ["secret"] "secret" [] "u").1
      (by rfl),
    (C8_unreadable_skipped specCollab lockedFS [] ["secret"] ["secret"] "secret" [] "u").2.1
      (by rfl),
    (C8_unreadable_skipped specCollab lockedFS [] ["secret"] [] "secret"
        [("a.cmake", FSEntry.file true "")] "file:///secret").2.2 (by rfl)⟩

/-- Helper: the inner file loop of a directory child leaves the state
unchanged when no child is a `CMAKEREGEX`-matching file. -/
theorem scanDirFiles_no_module (C : Collab) (fsys : FSEntry) (dirPath : FsPath)
    (cs : List (String × FSEntry)) (st : Option String × List FsPath)
    (h : cs.all (nonModuleChild C) = true) :
    scanDirFiles C fsys dirPath cs st = st := by
  induction cs generalizing st with
  | nil => rfl
  | cons c rest ih =>
    rw [List.all_cons, Bool.and_eq_true] at h
    obtain ⟨hc, hrest⟩ := h
    obtain ⟨fname, entry⟩ := c
    cases entry with
    | file r cont =>
      simp only [nonModuleChild, Bool.not_eq_true'] at hc
      simp only [scanDirFiles, hc, if_false, Bool.false_eq_true]
      exact ih st hrest
    | dir r cs2 =>
      simp only [scanDirFiles]
      exact ih st hrest

/-- C10: a listable directory child of a library root is unconditionally
inserted as a `Dir` package named after the directory, even when none of
its files matches any classifier: the record then has no version and an
empty navigation-target list; no "is a package" check guards this path. -/
theorem C10_dir_child_unconditional (C : Collab) (fsys : FSEntry) (m : PackageMap)
    (root : FsPath) (s : String) (cs : List (String × FSEntry)) (u : String)
    (hu : C.from_file_path (root ++ [s]) = some u)
    (hmod : cs.all (nonModuleChild C) = true) :
    processLibChild C fsys m root (s, FSEntry.dir true cs) =
      some (m.orInsert s
        { name := s, filetype := FileType.Dir, filepath := u, version := none,
          tojump := [], from_ := CMakePackageFrom.System }) := by
  simp [processLibChild, hu, scanDirFiles_no_module C fsys (root ++ [s]) cs (none, []) hmod]

/-- C10 witness: a directory child holding only a `README.txt` file and an
empty subdirectory still becomes a `Dir` package with no version and no
navigation targets. -/
theorem C10_dir_child_unconditional_witness :
    processLibChild specCollab lockedFS [] ["lib", "cmake"]
        ("Plain", FSEntry.dir true
          [("README.txt", FSEntry.file true ""), ("sub", FSEntry.dir true [])]) =
      some (PackageMap.orInsert [] "Plain"
        { name := "Plain", filetype := FileType.Dir,
          filepath := "file:///lib/cmake/Plain", version := none,
          tojump := [], from_ := CMakePackageFrom.System }) :=
  C10_dir_child_unconditional specCollab lockedFS [] ["lib", "cmake"] "Plain"
    [("README.txt", FSEntry.file true ""), ("sub", FSEntry.dir true [])]
    "file:///lib/cmake/Plain" (by decide) (by decide)

/-- Helper: the file loop splits over list append. -/
theorem scanTreeFiles_append (C : Collab) (fsys : FSEntry) (tree : FsPath)
    (l1 l2 : List String) (st : TreeState) :
    scanTreeFiles C fsys tree (l1 ++ l2) st =
      scanTreeFiles C fsys tree l2 (scanTreeFiles C fsys tree l1 st) := by
  induction l1 generalizing st with
  | nil => rfl
  | cons f rest ih =>
    simp only [List.cons_append, scanTreeFiles]
    exact ih _

/-- Helper: a config-version file that is read successfully sets `version`
to its parse result, successful or not. -/
theorem treeStep_version_of_read (C : Collab) (fsys : FSEntry) (tree : FsPath)
    (st : TreeState) (f c : String)
    (hv : C.cmakeconfigversion (pathStr (tree ++ [f])) = true)
    (hr : fsys.readFile (tree ++ [f]) = some c) :
    (treeStep C fsys tree st f).version = C.getVersion c := by
  cases hcfg : C.cmakeconfig (pathStr (tree ++ [f])) <;> simp [treeStep, hv, hr, hcfg]

/-- Helper: a file that is not a readable config-version file leaves
`version` unchanged. -/
theorem treeStep_version_stable (C : Collab) (fsys : FSEntry) (tree : FsPath)
    (st : TreeState) (f : String)
    (h : C.cmakeconfigversion (pathStr (tree ++ [f])) = false ∨
      fsys.readFile (tree ++ [f]) = none) :
    (treeStep C fsys tree st f).version = st.version := by
  rcases h with h | h
  · cases hcfg : C.cmakeconfig (pathStr (tree ++ [f])) <;> simp [treeStep, h, hcfg]
  · cases hcv : C.cmakeconfigversion (pathStr (tree ++ [f])) <;>
      cases hcfg : C.cmakeconfig (pathStr (tree ++ [f])) <;> simp [treeStep, hcv, hcfg, h]

/-- Helper: over a run of files none of which is a readable config-version
file, `version` is unchanged. -/
theorem scanTreeFiles_version_stable (C : Collab) (fsys : FSEntry) (tree : FsPath)
    (l : List String) (st : TreeState)
    (h : ∀ g ∈ l, C.cmakeconfigversion (pathStr (tree ++ [g])) = false ∨
      fsys.readFile (tree ++ [g]) = none) :
    (scanTreeFiles C fsys tree l st).version = st.version := by
  induction l generalizing st with
  | nil => rfl
  | cons f rest ih =>
    simp only [scanTreeFiles]
    rw [ih _ fun g hg => h g (List.mem_cons_of_mem f hg)]
    exact treeStep_version_stable C fsys tree st f (h f (List.mem_cons_self f rest))

/-- C2 amended: in each config tree, the recorded version is the parse
result of the last config-version file whose content could be read: a
later readable-but-unparsable file clears an earlier successful parse
(last read wins, not last successful parse), while files that are not
readable config-version files leave it untouched. -/
theorem C2_amended_last_read_wins (C : Collab) (fsys : FSEntry) (tree : FsPath)
    (l1 l2 : List String) (f c : String) (st : TreeState)
    (hv : C.cmakeconfigversion (pathStr (tree ++ [f])) = true)
    (hr : fsys.readFile (tree ++ [f]) = some c)
    (hl2 : ∀ g ∈ l2, C.cmakeconfigversion (pathStr (tree ++ [g])) = false ∨
      fsys.readFile (tree ++ [g]) = none) :
    (scanTreeFiles C fsys tree (l1 ++ f :: l2) st).version = C.getVersion c := by
  rw [scanTreeFiles_append]
  simp only [scanTreeFiles]
  rw [scanTreeFiles_version_stable C fsys tree l2 _ hl2]
  exact treeStep_version_of_read C fsys tree _ f c hv hr

/-- C2 amended witness: over `c2fs`, the tree's version is the (failed)
parse of `BConfigVersion.cmake`, the last readable config-version file. -/
theorem C2_amended_last_read_wins_witness :
    (scanTreeFiles specCollab c2fs ["share", "Foo", "cmake"]
        (["AConfigVersion.cmake"] ++ "BConfigVersion.cmake" :: ["FooConfig.cmake"])
        ⟨[], none, false⟩).version = specCollab.getVersion "no version here" :=
  C2_amended_last_read_wins specCollab c2fs ["share", "Foo", "cmake"]
    ["AConfigVersion.cmake"] ["FooConfig.cmake"] "BConfigVersion.cmake" "no version here"
    ⟨[], none, false⟩ (by decide) (by decide) (by decide)

/-- Helper: `orInsert` never changes an existing binding. -/
theorem findPkg_orInsert_mono (m : PackageMap) (k : String) (v : CMakePackage)
    (n : String) (r : CMakePackage) (h : m.findPkg n = some r) :
    (m.orInsert k v).findPkg n = some r := by
  unfold PackageMap.orInsert
  cases hf : m.find? (fun p => p.1 == k) with
  | some _ => exact h
  | none =>
    unfold PackageMap.findPkg at h ⊢
    rw [List.find?_append]
    cases hf2 : m.find? (fun p => p.1 == n) with
    | some p => rw [hf2] at h; simpa using h
    | none => rw [hf2] at h; exact absurd h (by simp)

/-- Helper: `orInsert` preserves key uniqueness. -/
theorem orInsert_keysNodup (m : PackageMap) (k : String) (v : CMakePackage)
    (h : keysNodup m) : keysNodup (m.orInsert k v) := by
  unfold PackageMap.orInsert
  cases hf : m.find? (fun p => p.1 == k) with
  | some _ => exact h
  | none =>
    have hk : ∀ p ∈ m, ¬(p.1 = k) := by
      intro p hp hpk
      have := List.find?_eq_none.mp hf p hp
      simp [hpk] at this
    simp only [keysNodup, List.map_append, List.map_cons, List.map_nil]
    rw [List.nodup_append]
    refine ⟨h, List.nodup_singleton k, ?_⟩
    intro a ha hb
    rw [List.mem_singleton] at hb
    subst hb
    obtain ⟨p, hp, hpa⟩ := List.mem_map.mp ha
    exact hk p hp hpa

/-- One scan stage preserves existing bindings and key uniqueness. -/
def Preserves (m m2 : PackageMap) : Prop :=
  (∀ n r, m.findPkg n = some r → m2.findPkg n = some r) ∧ (keysNodup m → keysNodup m2)

/-- Helper: `Preserves` is reflexive. -/
theorem preserves_refl (m : PackageMap) : Preserves m m :=
  ⟨fun _ _ h => h, fun h => h⟩

/-- Helper: `Preserves` composes. -/
theorem preserves_trans (m1 m2 m3 : PackageMap) (h1 : Preserves m1 m2)
    (h2 : Preserves m2 m3) : Preserves m1 m3 :=
  ⟨fun n r h => h2.1 n r (h1.1 n r h), fun h => h2.2 (h1.2 h)⟩

/-- Helper: `orInsert` is a preserving step. -/
theorem preserves_orInsert (m : PackageMap) (k : String) (v : CMakePackage) :
    Preserves m (m.orInsert k v) :=
  ⟨fun n r h => findPkg_orInsert_mono m k v n r h, fun h => orInsert_keysNodup m k v h⟩

/-- Helper: processing one config tree preserves the map. -/
theorem processTree_preserves (C : Collab) (fsys : FSEntry) (m : PackageMap)
    (t : FsPath) (m2 : PackageMap) (h : processTree C fsys m t = some m2) :
    Preserves m m2 := by
  simp only [processTree] at h
  split at h
  · split at h
    · exact absurd h (by simp)
    · split at h
      · exact absurd h (by simp)
      · rw [Option.some.injEq] at h
        subst h
        exact preserves_orInsert m _ _
  · rw [Option.some.injEq] at h
    subst h
    exact preserves_refl m

/-- Helper: the config-tree scan preserves the map. -/
theorem scanConfigTrees_preserves (C : Collab) (fsys : FSEntry) (ts : List FsPath) :
    ∀ m m2, scanConfigTrees C fsys ts m = some m2 → Preserves m m2 := by
  induction ts with
  | nil =>
    intro m m2 h
    rw [scanConfigTrees, Option.some.injEq] at h
    subst h
    exact preserves_refl m
  | cons t ts ih =>
    intro m m2 h
    rw [scanConfigTrees] at h
    split at h
    · exact absurd h (by simp)
    · next mid hmid =>
      exact preserves_trans m mid m2 (processTree_preserves C fsys m t mid hmid) (ih mid m2 h)

/-- Helper: processing one library-root child preserves the map. -/
theorem processLibChild_preserves (C : Collab) (fsys : FSEntry) (m : PackageMap)
    (root : FsPath) (child : String × FSEntry) (m2 : PackageMap)
    (h : processLibChild C fsys m root child = some m2) : Preserves m m2 := by
  simp only [processLibChild] at h
  split at h
  · exact absurd h (by simp)
  · split at h
    · split at h
      · rw [Option.some.injEq] at h
        subst h
        exact preserves_orInsert m _ _
      · rw [Option.some.injEq] at h
        subst h
        exact preserves_refl m
    · rw [Option.some.injEq] at h
      subst h
      exact preserves_orInsert m _ _

/-- Helper: the child loop of one library root preserves the map. -/
theorem scanLibChildren_preserves (C : Collab) (fsys : FSEntry) (root : FsPath)
    (cs : List (String × FSEntry)) :
    ∀ m m2, scanLibChildren C fsys root cs m = some m2 → Preserves m m2 := by
  induction cs with
  | nil =>
    intro m m2 h
    rw [scanLibChildren, Option.some.injEq] at h
    subst h
    exact preserves_refl m
  | cons c cs ih =>
    intro m m2 h
    rw [scanLibChildren] at h
    split at h
    · exact absurd h (by simp)
    · next mid hmid =>
      exact preserves_trans m mid m2
        (processLibChild_preserves C fsys m root c mid hmid) (ih mid m2 h)

/-- Helper: processing one library root preserves the map. -/
theorem processLibRoot_preserves (C : Collab) (fsys : FSEntry) (m : PackageMap)
    (root : FsPath) (m2 : PackageMap) (h : processLibRoot C fsys m root = some m2) :
    Preserves m m2 := by
  rw [processLibRoot] at h
  split at h
  · rw [Option.some.injEq] at h
    subst h
    exact preserves_refl m
  · next cs hcs => exact scanLibChildren_preserves C fsys root cs m m2 h

/-- Helper: the library-root scan preserves the map. -/
theorem scanLibRoots_preserves (C : Collab) (fsys : FSEntry) (roots : List FsPath) :
    ∀ m m2, scanLibRoots C fsys roots m = some m2 → Preserves m m2 := by
  induction roots with
  | nil =>
    intro m m2 h
    rw [scanLibRoots, Option.some.injEq] at h
    subst h
    exact preserves_refl m
  | cons root roots ih =>
    intro m m2 h
    rw [scanLibRoots] at h
    split at h
    · exact absurd h (by simp)
    · next mid hmid =>
      exact preserves_trans m mid m2
        (processLibRoot_preserves C fsys m root mid hmid) (ih mid m2 h)

/-- C3: package names are unique keys in the final index, and any binding
already present after the config-tree scan — in particular a config-style
record whose name a library-root candidate would reuse — survives the
library-root scan unchanged (first-insert-wins, config scan runs first). -/
theorem C3_first_insert_wins (C : Collab) (fsys : FSEntry) (pre : FsPath)
    (mc final : PackageMap) (n : String) (r : CMakePackage)
    (hc : scanConfigTrees C fsys (globConfigDirs fsys pre) [] = some mc)
    (hn : PackageMap.findPkg mc n = some r)
    (hf : get_cmake_message_with_prefix C fsys pre = some final) :
    PackageMap.findPkg final n = some r ∧ keysNodup final := by
  rw [ get_cmake_message_with_prefix, hc] at hf
  have hp := scanLibRoots_preserves C fsys (get_available_libs fsys pre) mc final hf
  have hnodup : keysNodup mc :=
    (scanConfigTrees_preserves C fsys (globConfigDirs fsys pre) [] mc hc).2
      (by exact List.nodup_nil)
  exact ⟨hp.1 n r hn, hp.2 hnodup⟩

/-- C3 witness: over `c3fs` the config tree `share/Bar/cmake` and the
library-root child `share/cmake/Bar` collide on the name "Bar"; the final
index keeps the config-style record and unique keys. -/
theorem C3_first_insert_wins_witness :
    PackageMap.findPkg [("Bar", barCfgPkg)] "Bar" = some barCfgPkg ∧
    keysNodup [("Bar", barCfgPkg)] :=
  C3_first_insert_wins specCollab c3fs [] [("Bar", barCfgPkg)] [("Bar", barCfgPkg)]
    "Bar" barCfgPkg (by decide) (by decide) (by decide)

/-- Helper: a package-marked tree whose URL construction fails aborts the
tree step for every map. -/
theorem processTree_abort (C : Collab) (fsys : FSEntry) (tree : FsPath)
    (hip : (treeScanState C fsys tree).ispackage = true)
    (hurl : C.from_file_path tree = none) :
    ∀ m, processTree C fsys m tree = none := by
  intro m
  simp [processTree, hip, hurl]

/-- Helper: a tree step that fails on every map makes the tree fold fail. -/
theorem scanConfigTrees_abort (C : Collab) (fsys : FSEntry) (ts : List FsPath)
    (tree : FsPath) (ht : tree ∈ ts) (h : ∀ m, processTree C fsys m tree = none) :
    ∀ m, scanConfigTrees C fsys ts m = none := by
  induction ts with
  | nil => cases ht
  | cons t ts ih =>
    intro m
    rcases List.mem_cons.mp ht with rfl | hmem
    · simp [scanConfigTrees, h m]
    · rw [scanConfigTrees]
      split
      · rfl
      · exact ih hmem _

/-- Helper: a child whose URL construction fails aborts the child step for
every map. -/
theorem processLibChild_abort (C : Collab) (fsys : FSEntry) (root : FsPath)
    (child : String × FSEntry) (hurl : C.from_file_path (root ++ [child.1]) = none) :
    ∀ m, processLibChild C fsys m root child = none := by
  intro m
  simp [processLibChild, hurl]

/-- Helper: a child step that fails on every map makes the child loop fail. -/
theorem scanLibChildren_abort (C : Collab) (fsys : FSEntry) (root : FsPath)
    (cs : List (String × FSEntry)) (child : String × FSEntry) (hc : child ∈ cs)
    (h : ∀ m, processLibChild C fsys m root child = none) :
    ∀ m, scanLibChildren C fsys root cs m = none := by
  induction cs with
  | nil => cases hc
  | cons c cs ih =>
    intro m
    rcases List.mem_cons.mp hc with rfl | hmem
    · simp [scanLibChildren, h m]
    · rw [scanLibChildren]
      split
      · rfl
      · exact ih hmem _

/-- Helper: a root whose child loop always fails makes the root fold fail. -/
theorem scanLibRoots_abort (C : Collab) (fsys : FSEntry) (roots : List FsPath)
    (root : FsPath) (hr : root ∈ roots) (h : ∀ m, processLibRoot C fsys m root = none) :
    ∀ m, scanLibRoots C fsys roots m = none := by
  induction roots with
  | nil => cases hr
  | cons r rs ih =>
    intro m
    rcases List.mem_cons.mp hr with rfl | hmem
    · simp [scanLibRoots, h m]
    · rw [scanLibRoots]
      split
      · rfl
      · exact ih hmem _

/-- C7: if URL construction fails for a path the scan reaches — the tree
path of a config tree marked as a package, or the path of any child of a
listable library root — the whole build aborts with no partial index. -/
theorem C7_url_failure_aborts (C : Collab) (fsys : FSEntry) (pre : FsPath) :
    (∀ tree, tree ∈ globConfigDirs fsys pre →
      (treeScanState C fsys tree).ispackage = true →
      C.from_file_path tree = none →
      get_cmake_message_with_prefix C fsys pre = none) ∧
    (∀ root cs child, root ∈ get_available_libs fsys pre →
      fsys.listDir root = some cs → child ∈ cs →
      C.from_file_path (root ++ [child.1]) = none →
      get_cmake_message_with_prefix C fsys pre = none) := by
  constructor
  · intro tree ht hip hurl
    rw [ get_cmake_message_with_prefix,
      scanConfigTrees_abort C fsys (globConfigDirs fsys pre) tree ht
        (processTree_abort C fsys tree hip hurl) []]
  · intro root cs child hroot hls hchild hurl
    have hrt : ∀ m, processLibRoot C fsys m root = none := by
      intro m
      rw [processLibRoot, hls]
      exact scanLibChildren_abort C fsys root cs child hchild
        (processLibChild_abort C fsys root child hurl) m
    rw [ get_cmake_message_with_prefix]
    split
    · rfl
    · exact scanLibRoots_abort C fsys (get_available_libs fsys pre) root hroot hrt _

/-- C7 witness: URL-construction failure on the `ECM` config tree, and
separately on the `VulkanHeaders` library-root child, each aborts the
whole build of the unit-test filesystem. -/
theorem C7_url_failure_aborts_witness :
    get_cmake_message_with_prefix failCollabA testFS [] = none ∧
    get_cmake_message_with_prefix failCollabB testFS [] = none :=
  ⟨(C7_url_failure_aborts failCollabA testFS []).1 ["share", "ECM", "cmake"]
      (by decide) (by decide) (by decide),
   (C7_url_failure_aborts failCollabB testFS []).2 ["share", "cmake"]
      [("VulkanHeaders", vulkanTree)] ("VulkanHeaders", vulkanTree)
      (by decide) (by rfl) (List.mem_singleton_self _) (by decide)⟩

end FindPkg
